import Mathlib

/-!
Verification of `ovos_phal_plugin_media_led/__init__.py`.

Shallow embedding of the plugin's core: the `MultiLED` composite device
(fan-out with per-driver failure isolation), the playback state controller
(`_handle_playing_started` / `_handle_playing_stopped` / `_on_player_state`),
the one-shot `shutdown` routine, and the `_rainbow` animator's hue
arithmetic.  Machine floats are modelled as exact rationals, Python `int()`
truncation as integer truncated division, and Python exceptions as
`Except Unit`.
-/

namespace MediaLed

/-! ### Composite pixel count and animator geometry -/

/-- Pixel count of the composite device, from `MultiLED.num_pixels`:
`max((getattr(d, "num_pixels", 0) for d in self.drivers), default=0)`.
Each active driver is represented by its reported pixel count. -/
def numPixels (counts : List Nat) : Nat := counts.foldr max 0

/-- Python truthiness fallback `a or b` on a non-negative integer
(`0` is falsy, so `0 or b` yields `b`). -/
def pyOrNat (a b : Nat) : Nat := if a = 0 then b else a

/-- From `MediaLedPlugin._rainbow`: `num = max(1, self.leds.num_pixels or 28)`. -/
def animNum (numPix : Nat) : Nat := max 1 (pyOrNat numPix 28)

/-- From `MediaLedPlugin._rainbow`: `spacing = 360.0 / float(num)`, in degrees. -/
def spacing (numPix : Nat) : ℚ := 360 / (animNum numPix : ℚ)

/-! ### Playback state controller

State observed by the handlers: the `self.playing` flag, the
`self._stop_event` threading event, and whether `self._anim_thread`
currently holds a live thread handle. -/

structure CtrlState where
  playing : Bool
  stopEventSet : Bool
  thread : Bool
deriving DecidableEq

/-- Side effects a handler invocation may perform. -/
inductive Eff where
  | clearStopEvent
  | launchThread
  | setStopEvent
  | joinThread
  | clearLeds
  | showLeds
  | closeLeds
deriving DecidableEq

/-- Initial runtime state set in `MediaLedPlugin.__init__`:
`self.playing = False`, stop event unset, no animation thread. -/
def initCtrl : CtrlState := ⟨false, false, false⟩

/-- `MediaLedPlugin._handle_playing_started`: return immediately unless
there are active drivers and not already playing; otherwise set the flag,
clear the stop event and launch the daemon animation thread. -/
def startStep (hasDrivers : Bool) (s : CtrlState) : CtrlState × List Eff :=
  if !hasDrivers || s.playing then (s, [])
  else (⟨true, false, true⟩, [.clearStopEvent, .launchThread])

/-- `MediaLedPlugin._handle_playing_stopped`: return immediately unless
there are active drivers and currently playing; otherwise drop the flag,
set the stop event, join the thread (when one is held) and clear the LEDs. -/
def stopStep (hasDrivers : Bool) (s : CtrlState) : CtrlState × List Eff :=
  if !hasDrivers || !s.playing then (s, [])
  else (⟨false, true, false⟩,
    [.setStopEvent] ++ (if s.thread then [.joinThread] else []) ++ [.clearLeds])

/-- Normalized playback signal delivered to the controller. -/
inductive Sig where
  | start
  | stop
deriving DecidableEq

/-- Dispatch one normalized signal to the corresponding handler. -/
def sigStep (hasDrivers : Bool) (s : CtrlState) : Sig → CtrlState × List Eff
  | .start => startStep hasDrivers s
  | .stop => stopStep hasDrivers s

/-- Deliver a sequence of normalized signals, accumulating the effects. -/
def runSigs (hasDrivers : Bool) (s : CtrlState) : List Sig → CtrlState × List Eff
  | [] => (s, [])
  | g :: rest =>
    let r1 := sigStep hasDrivers s g
    let r2 := runSigs hasDrivers r1.1 rest
    (r2.1, r1.2 ++ r2.2)

/-- Active-driver list of `MultiLED.__init__`:
`self.drivers = [d for d in drivers if d]`; each configured backend is
represented by its truthiness (a degraded `NullLED` is falsy). -/
def activeDrivers (ds : List Bool) : List Bool := ds.filter (fun b => b)

/-- Truthiness of `self.leds.drivers` as tested by both handlers. -/
def hasActive (ds : List Bool) : Bool := !(activeDrivers ds).isEmpty

/-! ### Shutdown lifecycle -/

/-- Runtime state relevant to `MediaLedPlugin.shutdown`: the controller
state plus the one-shot `self._shutting_down` guard. -/
structure PluginState where
  ctrl : CtrlState
  shuttingDown : Bool
deriving DecidableEq

/-- `MediaLedPlugin.shutdown`: return at once when `_shutting_down` is
already set; otherwise set the guard, run `_handle_playing_stopped`, then
`leds.clear()`, `leds.show()`, `leds.close()`. -/
def shutdownStep (hasDrivers : Bool) (p : PluginState) : PluginState × List Eff :=
  if p.shuttingDown then (p, [])
  else
    let r := stopStep hasDrivers p.ctrl
    (⟨r.1, true⟩, r.2 ++ [.clearLeds, .showLeds, .closeLeds])

/-- Invoke `shutdown` a given number of times in a row (exit hook, signal
handler, explicit call), accumulating all effects. -/
def shutdownN (hasDrivers : Bool) : Nat → PluginState → PluginState × List Eff
  | 0, p => (p, [])
  | n + 1, p =>
    let r1 := shutdownStep hasDrivers p
    let r2 := shutdownN hasDrivers n r1.1
    (r2.1, r1.2 ++ r2.2)

/-! ### `MultiLED.close`

Each member driver is abstracted by which of its operations succeed; the
embedding records the ordered trace of calls `close()` delivers to the
drivers (a call is recorded when the driver receives it, whether or not it
raises). -/

structure CDriver where
  fillOk : Bool
  clearOk : Bool
  showOk : Bool
  closeOk : Bool
  deinitOk : Bool
deriving DecidableEq

/-- A single call delivered to driver number `i` of the composite. -/
inductive DevCall where
  | fillAt (i : Nat)
  | clearAt (i : Nat)
  | showAt (i : Nat)
  | closeAt (i : Nat)
  | deinitAt (i : Nat)
deriving DecidableEq

/-- First loop of `MultiLED.close`: for each driver try `fill((0,0,0))`,
falling back to `clear()`.  A `clear()` that raises escapes this loop (it
is only caught by the surrounding `except` that also skips the show loop),
so the traversal aborts there.  Returns the trace and whether the loop
completed. -/
def preClearLoop : Nat → List CDriver → List DevCall × Bool
  | _, [] => ([], true)
  | i, d :: rest =>
    if d.fillOk then
      let r := preClearLoop (i + 1) rest
      (.fillAt i :: r.1, r.2)
    else if d.clearOk then
      let r := preClearLoop (i + 1) rest
      (.fillAt i :: .clearAt i :: r.1, r.2)
    else ([.fillAt i, .clearAt i], false)

/-- Second loop of `MultiLED.close`: `show()` on every driver, each failure
caught individually. -/
def showLoop : Nat → List CDriver → List DevCall
  | _, [] => []
  | i, _ :: rest => .showAt i :: showLoop (i + 1) rest

/-- The `finally` loop of `MultiLED.close`: `close()` on every driver,
falling back to `deinit()` when `close()` raises; all failures caught. -/
def closeLoop : Nat → List CDriver → List DevCall
  | _, [] => []
  | i, d :: rest =>
    (if d.closeOk then [DevCall.closeAt i] else [DevCall.closeAt i, DevCall.deinitAt i])
      ++ closeLoop (i + 1) rest

/-- Full call trace of `MultiLED.close`: pre-clear loop, then (only when it
completed) the show loop, then — in the `finally` — the release loop. -/
def multiClose (ds : List CDriver) : List DevCall :=
  let r := preClearLoop 0 ds
  (r.1 ++ (if r.2 then showLoop 0 ds else [])) ++ closeLoop 0 ds

/-- A pre-clear call (fill, clear or show). -/
def DevCall.isPreClear : DevCall → Bool
  | .fillAt _ | .clearAt _ | .showAt _ => true
  | _ => false

/-- A release call (close or deinit). -/
def DevCall.isRelease : DevCall → Bool
  | .closeAt _ | .deinitAt _ => true
  | _ => false

/-- Composite whose first driver raises in both `fill` and `clear` while
the second driver is fully healthy. -/
def closeEx : List CDriver :=
  [⟨false, false, true, true, true⟩, ⟨true, true, true, true, true⟩]

/-- Composite `[A, B]` where only A's `close()` raises. -/
def specEx : List CDriver :=
  [⟨true, true, true, false, true⟩, ⟨true, true, true, true, true⟩]

/-! ### `MultiLED.__setitem__`

A member driver is abstracted by its failure behaviour for single-pixel
writes, together with its current pixel buffer (whose length is its pixel
count).  A raising driver operation is an `Except.error`. -/

/-- An RGB triple. -/
abbrev Color := Nat × Nat × Nat

structure SDriver where
  setRaises : Bool
  oorRaises : Bool
  hasSetPixel : Bool
deriving DecidableEq

/-- A member driver's `d[i] = color` (equally `d.__setitem__(i, color)`):
raises on a transient failure; writes the pixel when in range; out of
range, either raises an index error or silently ignores, per driver. -/
def driverSetItem (d : SDriver) (pix : List Color) (i : Nat) (c : Color) :
    Except Unit (List Color) :=
  if d.setRaises then .error ()
  else if i < pix.length then .ok (pix.set i c)
  else if d.oorRaises then .error () else .ok pix

/-- A member driver's `d.set_pixel(i, color)`: an attribute error when the
driver has no such method, otherwise the same write behaviour. -/
def driverSetPixel (d : SDriver) (pix : List Color) (i : Nat) (c : Color) :
    Except Unit (List Color) :=
  if !d.hasSetPixel then .error ()
  else driverSetItem d pix i c

/-- Per-driver body of `MultiLED.__setitem__`: try `d[i] = color`, on
failure retry `d.__setitem__(i, color)`, then `d.set_pixel(i, color)`, and
finally `pass` — the driver's buffer is left unchanged when every attempt
raises. -/
def trySetItem (d : SDriver) (pix : List Color) (i : Nat) (c : Color) : List Color :=
  match driverSetItem d pix i c with
  | .ok p => p
  | .error _ =>
    match driverSetItem d pix i c with
    | .ok p => p
    | .error _ =>
      match driverSetPixel d pix i c with
      | .ok p => p
      | .error _ => pix

/-- `MultiLED.__setitem__` over the driver list: an uncaught exception in
any per-driver body would abort the loop and propagate to the caller as an
`Except.error`. -/
def multiSetItem : List (SDriver × List Color) → Nat → Color →
    Except Unit (List (SDriver × List Color))
  | [], _, _ => .ok []
  | (d, pix) :: rest, i, c =>
    match multiSetItem rest i c with
    | .ok rs => .ok ((d, trySetItem d pix i c) :: rs)
    | .error e => .error e

/-- A short strict driver: 5 pixels, raises an index error out of range,
and has no `set_pixel` attribute. -/
def strictDrv : SDriver := ⟨false, true, false⟩

/-- A driver whose set always raises a transient error. -/
def flakyDrv : SDriver := ⟨true, false, false⟩

/-- A healthy driver that silently ignores out-of-range writes. -/
def okDrv : SDriver := ⟨false, false, false⟩

/-- Composite for the index-10 scenario: a 5-pixel strict driver, a
12-pixel failing driver and a 12-pixel healthy driver, all dark. -/
def setEx : List (SDriver × List Color) :=
  [(strictDrv, List.replicate 5 (0, 0, 0)),
   (flakyDrv, List.replicate 12 (0, 0, 0)),
   (okDrv, List.replicate 12 (0, 0, 0))]

/-! ### `MediaLedPlugin._on_player_state`

The `state` entry of a bus-message payload is a JSON value; the handler
reads `(message.data or {}).get("state") or ""`, stringifies non-strings,
lowercases and compares. -/

/-- JSON-style payload value (`message.data` values travel as JSON). -/
inductive PyVal where
  | none
  | str (s : String)
  | int (n : Int)
  | bool (b : Bool)
deriving DecidableEq

/-- Python truthiness of a payload value. -/
def pyFalsy : PyVal → Bool
  | .none => true
  | .str s => s == ""
  | .int n => n == 0
  | .bool b => !b

/-- Python `str()` of a payload value (decimal digits for integers,
`"True"`/`"False"` for booleans, `"None"` for null). -/
def pyStr : PyVal → String
  | .none => "None"
  | .str s => s
  | .int n => Int.repr n
  | .bool b => if b then "True" else "False"

/-- Python `str.lower()`: lowercase each character. -/
def pyLower (s : String) : String := ⟨s.data.map Char.toLower⟩

/-- `(message.data or {}).get("state") or ""` — the payload is an optional
association list; a missing payload or key, or a falsy value, yields `""`. -/
def getState (data : Option (List (String × PyVal))) : PyVal :=
  match (data.getD []).lookup "state" with
  | some v => if pyFalsy v then .str "" else v
  | Option.none => .str ""

/-- Action the controller takes for a player-state value. -/
inductive PAction where
  | start
  | stop
  | ignore
deriving DecidableEq

/-- Classification in `_on_player_state`: stringify unless already a
string, lowercase, then dispatch on `"playing"` / `"paused"` / `"stopped"`. -/
def classifyState (v : PyVal) : PAction :=
  let st := pyLower (pyStr v)
  if st = "playing" then .start
  else if st = "paused" ∨ st = "stopped" then .stop
  else .ignore

/-- `MediaLedPlugin._on_player_state` on a whole payload. -/
def onPlayerState (data : Option (List (String × PyVal))) : PAction :=
  classifyState (getState data)

/-- Characters that can occur in the decimal string of an integer. -/
def intChars : List Char := ['-', '0', '1', '2', '3', '4', '5', '6', '7', '8', '9']

/-! ### `MediaLedPlugin._rainbow` — loop shape

Operations the animator performs on the composite device.  Each loop
iteration observes the externally updated stop event and playing flag; the
schedule of those observations is a finite list containing an iteration at
which the loop condition fails. -/

inductive AnimOp where
  | setPix (x : Nat)
  | flush
  | sleep
  | clearAll
deriving DecidableEq

/-- One animation frame: write every pixel (`MultiLED.__setitem__` and
`MultiLED.show` never raise, so the per-frame `try/except` clauses never
fire), flush, sleep. -/
def frameOps (num : Nat) : List AnimOp :=
  (List.range num).map AnimOp.setPix ++ [.flush, .sleep]

/-- The `while not stop_event.is_set() and self.playing` loop with its
`finally` clause: on exit, `self.leds.clear()` then `self.leds.show()`.
Each schedule entry is `(stopEventSet, playing)` as observed at the top of
the iteration. -/
def rainbowLoop (num : Nat) : List (Bool × Bool) → List AnimOp
  | [] => [.clearAll, .flush]
  | e :: rest =>
    if e.1 || !e.2 then [.clearAll, .flush]
    else frameOps num ++ rainbowLoop num rest

/-! ### `MediaLedPlugin._rainbow` — hue arithmetic

Floats are modelled exactly as rationals; Python `int(x)` is truncation
toward zero; Python `%` on a positive modulus is Euclidean on integers and
floor-based on floats. -/

/-- Python `int(q)`: truncation toward zero. -/
def pyInt (q : ℚ) : ℤ := q.num.tdiv q.den

/-- `hue = int(time.time() * 100) % 360` at wall-clock time `t` seconds. -/
def hue0 (t : ℚ) : ℤ := pyInt (t * 100) % 360

/-- Python float `a % b` for `b > 0`: `a - b * floor(a / b)`. -/
def qmod (a b : ℚ) : ℚ := a - b * (⌊a / b⌋ : ℤ)

/-- Degrees of pixel `x`: `(hue + x * spacing) % 360`. -/
def pixelHue (t : ℚ) (numPix x : Nat) : ℚ :=
  qmod ((hue0 t : ℚ) + (x : ℚ) * spacing numPix) 360

/-- `colorsys.hsv_to_rgb` from CPython, verbatim over rationals. -/
def hsvToRgb (h s v : ℚ) : ℚ × ℚ × ℚ :=
  if s = 0 then (v, v, v)
  else
    let i := pyInt (h * 6)
    let f := h * 6 - (i : ℚ)
    let p := v * (1 - s)
    let q := v * (1 - s * f)
    let t := v * (1 - s * (1 - f))
    let j := i % 6
    if j = 0 then (v, t, p)
    else if j = 1 then (q, v, p)
    else if j = 2 then (p, v, t)
    else if j = 3 then (p, q, v)
    else if j = 4 then (t, p, v)
    else (p, t, q)

/-- `int(c * 255)` for one channel. -/
def scale255 (c : ℚ) : ℤ := pyInt (c * 255)

/-- RGB written to pixel `x` at time `t`:
`h = ((hue + x * spacing) % 360) / 360.0` then
`[int(c * 255) for c in colorsys.hsv_to_rgb(h, 1.0, 1.0)]`. -/
def rainbowPixel (t : ℚ) (numPix x : Nat) : ℤ × ℤ × ℤ :=
  let h := pixelHue t numPix x / 360
  let r := hsvToRgb h 1 1
  (scale255 r.1, scale255 r.2.1, scale255 r.2.2)

/-! ## Helper lemmas -/

lemma numPixels_cons (a : Nat) (l : List Nat) :
    numPixels (a :: l) = max a (numPixels l) := rfl

lemma le_numPixels_of_mem {counts : List Nat} {c : Nat} (h : c ∈ counts) :
    c ≤ numPixels counts := by
  induction counts with
  | nil => cases h
  | cons a l ih =>
    rw [numPixels_cons]
    rcases List.mem_cons.mp h with h1 | h1
    · exact h1 ▸ le_max_left a (numPixels l)
    · exact le_trans (ih h1) (le_max_right a (numPixels l))

lemma numPixels_mem {counts : List Nat} (h : counts ≠ []) :
    numPixels counts ∈ counts := by
  induction counts with
  | nil => exact absurd rfl h
  | cons a l ih =>
    rw [numPixels_cons]
    cases l with
    | nil => simp [numPixels]
    | cons b t =>
      rcases max_choice a (numPixels (b :: t)) with h1 | h1
      · rw [h1]; exact List.mem_cons_self a (b :: t)
      · rw [h1]; exact List.mem_cons_of_mem a (ih (by simp))

lemma animNum_eq (n : Nat) : animNum n = if n = 0 then 28 else n := by
  rcases Nat.eq_zero_or_pos n with h | h
  · subst h; rfl
  · have hne : n ≠ 0 := Nat.pos_iff_ne_zero.mp h
    simp only [animNum, pyOrNat, if_neg hne]
    exact Nat.max_eq_right h

lemma runSigs_noDrivers (sigs : List Sig) : ∀ s, runSigs false s sigs = (s, []) := by
  induction sigs with
  | nil => intro s; rfl
  | cons g rest ih =>
    intro s
    cases g <;> simp [runSigs, sigStep, startStep, stopStep, ih]

/-- Expected final `playing` flag after a signal sequence: the last signal
decides, the start state decides when there is none. -/
def lastPlaying (b : Bool) : List Sig → Bool
  | [] => b
  | .start :: rest => lastPlaying true rest
  | .stop :: rest => lastPlaying false rest

lemma lastPlaying_eq_getLast (b : Bool) (sigs : List Sig) :
    lastPlaying b sigs =
      (match sigs.getLast? with
       | some .start => true
       | some .stop => false
       | none => b) := by
  induction sigs generalizing b with
  | nil => rfl
  | cons g rest ih =>
    cases rest with
    | nil => cases g <;> rfl
    | cons g2 t =>
      obtain ⟨l, hl⟩ : ∃ l, (g2 :: t).getLast? = some l := by
        cases h2 : (g2 :: t).getLast? with
        | none => simp at h2
        | some l => exact ⟨l, rfl⟩
      have h3 : lastPlaying b (g :: g2 :: t) =
          lastPlaying (if g = Sig.start then true else false) (g2 :: t) := by
        cases g <;> rfl
      rw [h3, ih, List.getLast?_cons_cons, hl]
      cases l <;> rfl

lemma startStep_playing (s : CtrlState) : (startStep true s).1.playing = true := by
  simp only [startStep]
  split
  · next h => simpa using h
  · rfl

lemma stopStep_playing (s : CtrlState) : (stopStep true s).1.playing = false := by
  simp only [stopStep]
  split
  · next h => simpa using h
  · rfl

lemma sigStep_invariant (hd : Bool) (s : CtrlState) (g : Sig)
    (h : s.thread = s.playing) :
    (sigStep hd s g).1.thread = (sigStep hd s g).1.playing := by
  cases g <;> simp only [sigStep, startStep, stopStep] <;>
    split <;> simp [h]

lemma runSigs_playing (sigs : List Sig) :
    ∀ s : CtrlState, s.thread = s.playing →
      (runSigs true s sigs).1.thread = (runSigs true s sigs).1.playing ∧
      (runSigs true s sigs).1.playing = lastPlaying s.playing sigs := by
  induction sigs with
  | nil => exact fun s h => ⟨h, rfl⟩
  | cons g rest ih =>
    intro s h
    have hinv := sigStep_invariant true s g h
    have hrec := ih (sigStep true s g).1 hinv
    constructor
    · simpa [runSigs] using hrec.1
    · have hlast : lastPlaying s.playing (g :: rest) =
          lastPlaying (sigStep true s g).1.playing rest := by
        cases g
        · rw [show (sigStep true s Sig.start).1.playing = true from
            startStep_playing s]
          rfl
        · rw [show (sigStep true s Sig.stop).1.playing = false from
            stopStep_playing s]
          rfl
      simpa [runSigs, hlast] using hrec.2

lemma preClearLoop_isPreClear :
    ∀ (ds : List CDriver) (b : Nat), ∀ c ∈ (preClearLoop b ds).1,
      c.isPreClear = true := by
  intro ds
  induction ds with
  | nil => intro b c hc; simp [preClearLoop] at hc
  | cons d rest ih =>
    intro b c hc
    simp only [preClearLoop] at hc
    split_ifs at hc with h1 h2 <;> simp only [List.mem_cons] at hc
    · rcases hc with rfl | hc
      · rfl
      · exact ih (b + 1) c hc
    · rcases hc with rfl | rfl | hc
      · rfl
      · rfl
      · exact ih (b + 1) c hc
    · rcases hc with rfl | rfl | hc
      · rfl
      · rfl
      · simp at hc

lemma preClearLoop_complete :
    ∀ (ds : List CDriver) (b : Nat),
      (∀ d ∈ ds, d.fillOk = true ∨ d.clearOk = true) →
      (preClearLoop b ds).2 = true ∧
        ∀ i, i < ds.length → DevCall.fillAt (b + i) ∈ (preClearLoop b ds).1 := by
  intro ds
  induction ds with
  | nil => intro b _; exact ⟨rfl, fun i hi => by simp at hi⟩
  | cons d rest ih =>
    intro b h
    have hrest := ih (b + 1) (fun x hx => h x (List.mem_cons_of_mem d hx))
    have hshift : ∀ i, i < rest.length →
        DevCall.fillAt (b + (i + 1)) ∈ (preClearLoop (b + 1) rest).1 := by
      intro i hi
      have he : b + (i + 1) = (b + 1) + i := by omega
      rw [he]
      exact hrest.2 i hi
    rcases h d (List.mem_cons_self d rest) with h1 | h1
    · refine ⟨?_, ?_⟩
      · simp only [preClearLoop, if_pos h1]
        exact hrest.1
      · intro i hi
        simp only [preClearLoop, if_pos h1]
        cases i with
        | zero => simp
        | succ j =>
          exact List.mem_cons_of_mem _ (hshift j (by simpa using hi))
    · by_cases h2 : d.fillOk = true
      · refine ⟨?_, ?_⟩
        · simp only [preClearLoop, if_pos h2]
          exact hrest.1
        · intro i hi
          simp only [preClearLoop, if_pos h2]
          cases i with
          | zero => simp
          | succ j =>
            exact List.mem_cons_of_mem _ (hshift j (by simpa using hi))
      · refine ⟨?_, ?_⟩
        · simp only [preClearLoop, if_neg h2, if_pos h1]
          exact hrest.1
        · intro i hi
          simp only [preClearLoop, if_neg h2, if_pos h1]
          cases i with
          | zero => simp
          | succ j =>
            exact List.mem_cons_of_mem _
              (List.mem_cons_of_mem _ (hshift j (by simpa using hi)))

lemma showLoop_isPreClear :
    ∀ (ds : List CDriver) (b : Nat), ∀ c ∈ showLoop b ds, c.isPreClear = true := by
  intro ds
  induction ds with
  | nil => intro b c hc; simp [showLoop] at hc
  | cons d rest ih =>
    intro b c hc
    rcases List.mem_cons.mp hc with rfl | hc
    · rfl
    · exact ih (b + 1) c hc

lemma showAt_mem_showLoop :
    ∀ (ds : List CDriver) (b i : Nat), i < ds.length →
      DevCall.showAt (b + i) ∈ showLoop b ds := by
  intro ds
  induction ds with
  | nil => intro b i hi; simp at hi
  | cons d rest ih =>
    intro b i hi
    cases i with
    | zero => simp [showLoop]
    | succ j =>
      have he : b + (j + 1) = (b + 1) + j := by omega
      rw [showLoop, he]
      exact List.mem_cons_of_mem _ (ih (b + 1) j (by simpa using hi))

lemma closeLoop_isRelease :
    ∀ (ds : List CDriver) (b : Nat), ∀ c ∈ closeLoop b ds, c.isRelease = true := by
  intro ds
  induction ds with
  | nil => intro b c hc; simp [closeLoop] at hc
  | cons d rest ih =>
    intro b c hc
    simp only [closeLoop] at hc
    rcases List.mem_append.mp hc with hc | hc
    · split_ifs at hc
      · simp only [List.mem_cons, List.not_mem_nil, or_false] at hc
        subst hc; rfl
      · rcases List.mem_cons.mp hc with rfl | hc2
        · rfl
        · rcases List.mem_cons.mp hc2 with rfl | hc3
          · rfl
          · simp at hc3
    · exact ih (b + 1) c hc

lemma closeAt_mem_closeLoop :
    ∀ (ds : List CDriver) (b i : Nat), i < ds.length →
      DevCall.closeAt (b + i) ∈ closeLoop b ds := by
  intro ds
  induction ds with
  | nil => intro b i hi; simp at hi
  | cons d rest ih =>
    intro b i hi
    simp only [closeLoop]
    cases i with
    | zero =>
      apply List.mem_append_left
      split_ifs <;> simp
    | succ j =>
      apply List.mem_append_right
      have he : b + (j + 1) = (b + 1) + j := by omega
      rw [he]
      exact ih (b + 1) j (by simpa using hi)

lemma multiSetItem_ok (ds : List (SDriver × List Color)) (i : Nat) (c : Color) :
    multiSetItem ds i c = .ok (ds.map fun p => (p.1, trySetItem p.1 p.2 i c)) := by
  induction ds with
  | nil => rfl
  | cons p rest ih =>
    obtain ⟨d, pix⟩ := p
    simp [multiSetItem, ih]

lemma digitChar_mem_intChars {m : Nat} (h : m < 10) :
    Nat.digitChar m ∈ intChars := by
  have : ∀ k, k < 10 → Nat.digitChar k ∈ intChars := by decide
  exact this m h

lemma toDigitsCore_chars :
    ∀ (f n : Nat) (acc : List Char), ∀ c ∈ Nat.toDigitsCore 10 f n acc,
      c ∈ acc ∨ c ∈ intChars := by
  intro f
  induction f with
  | zero => intro n acc c hc; exact Or.inl hc
  | succ f ih =>
    intro n acc c hc
    have hstep : Nat.toDigitsCore 10 (f + 1) n acc =
        (if n / 10 = 0 then Nat.digitChar (n % 10) :: acc
         else Nat.toDigitsCore 10 f (n / 10) (Nat.digitChar (n % 10) :: acc)) := rfl
    rw [hstep] at hc
    have hdig : Nat.digitChar (n % 10) ∈ intChars :=
      digitChar_mem_intChars (Nat.mod_lt n (by norm_num))
    split_ifs at hc
    · rcases List.mem_cons.mp hc with rfl | hc
      · exact Or.inr hdig
      · exact Or.inl hc
    · rcases ih (n / 10) (Nat.digitChar (n % 10) :: acc) c hc with h2 | h2
      · rcases List.mem_cons.mp h2 with rfl | h2
        · exact Or.inr hdig
        · exact Or.inl h2
      · exact Or.inr h2

lemma natRepr_chars (n : Nat) : ∀ c ∈ (Nat.repr n).data, c ∈ intChars := by
  intro c hc
  have hc2 : c ∈ Nat.toDigitsCore 10 (n + 1) n [] := hc
  rcases toDigitsCore_chars (n + 1) n [] c hc2 with h | h
  · simp at h
  · exact h

lemma intRepr_chars (n : ℤ) : ∀ c ∈ (Int.repr n).data, c ∈ intChars := by
  cases n with
  | ofNat m => exact natRepr_chars m
  | negSucc m =>
    intro c hc
    have hc2 : c ∈ '-' :: (Nat.repr (m + 1)).data := hc
    rcases List.mem_cons.mp hc2 with rfl | hc3
    · decide
    · exact natRepr_chars (m + 1) c hc3

lemma pyLower_ne_of_intChars {s : String}
    (hs : ∀ c ∈ s.data, c ∈ intChars) {t : String} (hp : 'p' ∈ t.data) :
    pyLower s ≠ t := by
  intro he
  have hdata : s.data.map Char.toLower = t.data := congrArg String.data he
  rw [← hdata] at hp
  obtain ⟨c, hc, hcl⟩ := List.mem_map.mp hp
  have h1 : c ∈ intChars := hs c hc
  have h2 : Char.toLower c = c := by
    have : ∀ x ∈ intChars, Char.toLower x = x := by decide
    exact this c h1
  rw [h2] at hcl
  subst hcl
  exact absurd h1 (by decide)

lemma pyLower_intRepr_ne (n : ℤ) {t : String} (hp : 'p' ∈ t.data) :
    pyLower (Int.repr n) ≠ t :=
  pyLower_ne_of_intChars (intRepr_chars n) hp

lemma classifyState_int (n : ℤ) : classifyState (.int n) = .ignore := by
  have h1 : pyLower (pyStr (.int n)) ≠ "playing" :=
    pyLower_intRepr_ne n (by decide)
  have h2 : pyLower (pyStr (.int n)) ≠ "paused" :=
    pyLower_intRepr_ne n (by decide)
  have h3 : pyLower (pyStr (.int n)) ≠ "stopped" :=
    pyLower_intRepr_ne n (by decide)
  simp only [classifyState, if_neg h1, if_neg (fun h => (h : _ ∨ _).elim h2 h3)]

lemma rainbowLoop_ends (num : Nat) :
    ∀ envs : List (Bool × Bool),
      ∃ pre, rainbowLoop num envs = pre ++ [AnimOp.clearAll, AnimOp.flush] := by
  intro envs
  induction envs with
  | nil => exact ⟨[], rfl⟩
  | cons e rest ih =>
    by_cases h : (e.1 || !e.2) = true
    · exact ⟨[], by simp [rainbowLoop, h]⟩
    · obtain ⟨pre, hp⟩ := ih
      refine ⟨frameOps num ++ pre, ?_⟩
      simp only [rainbowLoop, h, if_false, Bool.false_eq_true]
      rw [hp, List.append_assoc]

lemma pyInt_eq_floor {q : ℚ} (h : 0 ≤ q) : pyInt q = ⌊q⌋ := by
  rw [Rat.floor_def]
  exact Int.tdiv_eq_ediv (Rat.num_nonneg.mpr h) (Int.ofNat_nonneg _)

lemma pyInt_intCast (n : ℤ) : pyInt (n : ℚ) = n := by
  simp [pyInt, Rat.num_intCast, Rat.den_intCast, Int.tdiv_one]

lemma hue0_floor {t : ℚ} (h : 0 ≤ t) : hue0 t = ⌊t * 100⌋ % 360 := by
  rw [hue0, pyInt_eq_floor (by positivity)]

lemma hue0_nat (k : ℕ) : hue0 (k : ℚ) = (100 * (k : ℤ)) % 360 := by
  rw [hue0]
  have h : (k : ℚ) * 100 = ((100 * (k : ℤ) : ℤ) : ℚ) := by push_cast; ring
  rw [h, pyInt_intCast]

lemma hue0_zero : hue0 0 = 0 := by
  simpa using hue0_nat 0

lemma qmod_of_lt {a : ℚ} (h0 : 0 ≤ a) (h1 : a < 360) : qmod a 360 = a := by
  have hf : ⌊a / 360⌋ = 0 := by
    rw [Int.floor_eq_zero_iff]
    constructor
    · positivity
    · rw [div_lt_one (by norm_num)]; linarith
  rw [qmod, hf]
  push_cast
  ring

lemma spacing_28 : spacing 28 = 90 / 7 := by
  have h : animNum 28 = 28 := by decide
  rw [spacing, h]
  norm_num

lemma pixelHue_0 : pixelHue 0 28 0 = 0 := by
  rw [pixelHue, hue0_zero, spacing_28]
  have h : ((0 : ℤ) : ℚ) + ((0 : ℕ) : ℚ) * (90 / 7) = 0 := by push_cast; ring
  rw [h, qmod_of_lt le_rfl (by norm_num)]

lemma pixelHue_14 : pixelHue 0 28 14 = 180 := by
  rw [pixelHue, hue0_zero, spacing_28]
  have h : ((0 : ℤ) : ℚ) + ((14 : ℕ) : ℚ) * (90 / 7) = 180 := by push_cast; norm_num
  rw [h, qmod_of_lt (by norm_num) (by norm_num)]

lemma pixelHue_27 : pixelHue 0 28 27 = 2430 / 7 := by
  rw [pixelHue, hue0_zero, spacing_28]
  have h : ((0 : ℤ) : ℚ) + ((27 : ℕ) : ℚ) * (90 / 7) = 2430 / 7 := by
    push_cast; norm_num
  rw [h, qmod_of_lt (by norm_num) (by norm_num)]

lemma hsvToRgb_at_zero : hsvToRgb 0 1 1 = (1, 0, 0) := by
  have hi : pyInt ((0 : ℚ) * 6) = 0 := by
    rw [show (0 : ℚ) * 6 = ((0 : ℤ) : ℚ) by norm_num, pyInt_intCast]
  simp only [hsvToRgb, hi]
  norm_num

lemma hsvToRgb_at_half : hsvToRgb (1 / 2 : ℚ) 1 1 = (0, 1, 1) := by
  have hi : pyInt ((1 / 2 : ℚ) * 6) = 3 := by
    rw [show (1 / 2 : ℚ) * 6 = ((3 : ℤ) : ℚ) by norm_num, pyInt_intCast]
  simp only [hsvToRgb, hi]
  norm_num

lemma scale255_one : scale255 1 = 255 := by
  simp only [scale255]
  rw [show (1 : ℚ) * 255 = ((255 : ℤ) : ℚ) by norm_num, pyInt_intCast]

lemma scale255_zero : scale255 0 = 0 := by
  simp only [scale255]
  rw [show (0 : ℚ) * 255 = ((0 : ℤ) : ℚ) by norm_num, pyInt_intCast]

lemma rainbowPixel_at_0 : rainbowPixel 0 28 0 = (255, 0, 0) := by
  simp only [rainbowPixel, pixelHue_0]
  rw [show (0 : ℚ) / 360 = 0 by norm_num, hsvToRgb_at_zero]
  simp [scale255_one, scale255_zero]

lemma rainbowPixel_at_14 : rainbowPixel 0 28 14 = (0, 255, 255) := by
  simp only [rainbowPixel, pixelHue_14]
  rw [show (180 : ℚ) / 360 = 1 / 2 by norm_num, hsvToRgb_at_half]
  simp [scale255_one, scale255_zero]

lemma shutdownStep_done (hd : Bool) (q : PluginState) (h : q.shuttingDown = true) :
    shutdownStep hd q = (q, []) := by
  simp [shutdownStep, h]

lemma shutdownN_done (hd : Bool) (n : Nat) (q : PluginState)
    (h : q.shuttingDown = true) : shutdownN hd n q = (q, []) := by
  induction n with
  | zero => rfl
  | succ n ih => simp [shutdownN, shutdownStep_done hd q h, ih]

end MediaLed

/-! ## Claims -/

namespace MediaLed

/-- C5: the composite device's `num_pixels` equals the maximum of the
members' pixel counts (it bounds every member's count and is itself one of
them when any member exists), equals 0 when no drivers are active, and
equals 5 for member counts `[0, 5, 3]`. -/
theorem claim_C5_numPixels :
    (∀ counts : List Nat, ∀ c ∈ counts, c ≤ numPixels counts) ∧
    (∀ counts : List Nat, counts ≠ [] → numPixels counts ∈ counts) ∧
    numPixels [] = 0 ∧ numPixels [0, 5, 3] = 5 :=
  ⟨fun _ _ h => le_numPixels_of_mem h, fun _ h => numPixels_mem h, rfl, by decide⟩

/-- C5 witness: the general bounds instantiated on the concrete composite
`[0, 5, 3]`. -/
theorem claim_C5_numPixels_witness :
    5 ≤ numPixels [0, 5, 3] ∧ numPixels [0, 5, 3] ∈ [0, 5, 3] :=
  ⟨claim_C5_numPixels.1 [0, 5, 3] 5 (by decide),
   claim_C5_numPixels.2.1 [0, 5, 3] (by decide)⟩

/-- C4 counterexample: the code computes
`num = max(1, self.leds.num_pixels or 28)`, so a composite reporting 0
pixels gives `num = 28`, not `max(1, 0) = 1` as the claim states. -/
theorem claim_C4_counterexample : animNum 0 = 28 ∧ animNum 0 ≠ max 1 0 := by
  decide

/-- C4 amended: each frame operates on
`num = max(1, numPixels or 28)` pixels — `numPixels` itself when positive
and the fallback 28 when the composite reports 0 pixels — with hue spacing
`360 / num` degrees. -/
theorem claim_C4_amended :
    (∀ n : Nat, animNum n = if n = 0 then 28 else n) ∧
    (∀ n : Nat, spacing n = 360 / ((if n = 0 then 28 else n : Nat) : ℚ)) :=
  ⟨animNum_eq, fun n => by rw [spacing, animNum_eq]⟩

/-- C10: when every configured backend degraded to a falsy `NullLED` the
active-driver list is empty, and then any sequence of start/stop signals
leaves the controller in its initial idle state and produces no side
effects at all (no thread launch, no stop-event change, no clear). -/
theorem claim_C10_no_drivers :
    ∀ ds : List Bool, (∀ b ∈ ds, b = false) →
      activeDrivers ds = [] ∧ hasActive ds = false ∧
      ∀ sigs : List Sig, runSigs (hasActive ds) initCtrl sigs = (initCtrl, []) := by
  intro ds h
  have hact : activeDrivers ds = [] := by
    apply List.filter_eq_nil_iff.mpr
    intro b hb
    simp [h b hb]
  have hhas : hasActive ds = false := by simp [hasActive, hact]
  exact ⟨hact, hhas, fun sigs => by rw [hhas]; exact runSigs_noDrivers sigs initCtrl⟩

/-- C10 witness: two degraded backends, a start then a stop signal. -/
theorem claim_C10_no_drivers_witness :
    activeDrivers [false, false] = [] ∧
    runSigs (hasActive [false, false]) initCtrl [Sig.start, Sig.stop] = (initCtrl, []) :=
  ⟨(claim_C10_no_drivers [false, false] (by decide)).1,
   (claim_C10_no_drivers [false, false] (by decide)).2.2 [Sig.start, Sig.stop]⟩

/-- C1: with at least one active driver, after any sequence of normalized
start/stop signals a live animation thread is held iff the playing flag is
set, which holds iff the most recent signal was start; and a start while
already playing or a stop while already idle returns the state untouched
with zero side effects. -/
theorem claim_C1_start_stop :
    (∀ sigs : List Sig,
      ((runSigs true initCtrl sigs).1.playing = true ↔
        sigs.getLast? = some Sig.start) ∧
      (runSigs true initCtrl sigs).1.thread = (runSigs true initCtrl sigs).1.playing) ∧
    (∀ s : CtrlState, s.playing = true → startStep true s = (s, [])) ∧
    (∀ s : CtrlState, s.playing = false → stopStep true s = (s, [])) := by
  refine ⟨fun sigs => ?_, fun s h => by simp [startStep, h], fun s h => by simp [stopStep, h]⟩
  have h := runSigs_playing sigs initCtrl rfl
  refine ⟨?_, h.1⟩
  rw [h.2, lastPlaying_eq_getLast]
  cases hL : sigs.getLast? with
  | none => simp [initCtrl]
  | some g => cases g <;> simp

/-- C1 witness: duplicated start signals leave the task running; the no-op
guarantees instantiated on an animating and on the idle state. -/
theorem claim_C1_start_stop_witness :
    ((runSigs true initCtrl [Sig.start, Sig.start]).1.playing = true ↔
      [Sig.start, Sig.start].getLast? = some Sig.start) ∧
    startStep true ⟨true, false, true⟩ = (⟨true, false, true⟩, []) ∧
    stopStep true initCtrl = (initCtrl, []) :=
  ⟨(claim_C1_start_stop.1 [Sig.start, Sig.start]).1,
   claim_C1_start_stop.2.1 ⟨true, false, true⟩ rfl,
   claim_C1_start_stop.2.2 initCtrl rfl⟩

/-- C3: a first shutdown performs the full teardown (the stop handler's
effects, then clear, show and close on the composite device); any number of
further invocations — from exit hook, signal handler or explicit call —
contribute nothing: the accumulated behaviour of `n + 1` invocations equals
that of the first alone, and an invocation on an already-shut-down state is
a no-op leaving the state unchanged. -/
theorem claim_C3_shutdown_once :
    ∀ (hd : Bool) (p : PluginState), p.shuttingDown = false →
      ((shutdownStep hd p).2 =
        (stopStep hd p.ctrl).2 ++ [Eff.clearLeds, Eff.showLeds, Eff.closeLeds]) ∧
      (∀ n : Nat, shutdownN hd (n + 1) p = shutdownStep hd p) ∧
      (∀ q : PluginState, q.shuttingDown = true → shutdownStep hd q = (q, [])) := by
  intro hd p h
  refine ⟨by simp [shutdownStep, h], fun n => ?_, fun q hq => shutdownStep_done hd q hq⟩
  have h1 : (shutdownStep hd p).1.shuttingDown = true := by
    simp [shutdownStep, h]
  simp [shutdownN, shutdownN_done hd n _ h1]

/-- C2 counterexample: in `MultiLED.close`, a driver whose `fill` and
`clear` both raise makes the exception escape to the outer handler, so the
following driver never receives any pre-clear (nor a show) even though its
`close` is still attempted — the claim's guarantee does not hold for every
combination of per-driver failures. -/
theorem claim_C2_counterexample :
    DevCall.closeAt 1 ∈ multiClose closeEx ∧
    DevCall.fillAt 1 ∉ multiClose closeEx ∧
    DevCall.clearAt 1 ∉ multiClose closeEx ∧
    DevCall.showAt 1 ∉ multiClose closeEx := by
  decide

/-- C2 amended: `close()` always attempts `close` on every driver and
every pre-clear call it performs precedes every `close`/`deinit` call; and
provided each driver survives at least one of `fill`/`clear`, every driver
receives its `fill` and its `show` before any driver is released. -/
theorem claim_C2_close_order :
    ∀ ds : List CDriver,
      (∀ i, i < ds.length → DevCall.closeAt i ∈ multiClose ds) ∧
      (∃ pre post, multiClose ds = pre ++ post ∧
        (∀ c ∈ pre, c.isPreClear = true) ∧ (∀ c ∈ post, c.isRelease = true)) ∧
      ((∀ d ∈ ds, d.fillOk = true ∨ d.clearOk = true) →
        ∀ i, i < ds.length →
          DevCall.fillAt i ∈ multiClose ds ∧ DevCall.showAt i ∈ multiClose ds) := by
  intro ds
  refine ⟨fun i hi => ?_, ?_, fun h i hi => ?_⟩
  · exact List.mem_append_right _ (by simpa using closeAt_mem_closeLoop ds 0 i hi)
  · refine ⟨(preClearLoop 0 ds).1 ++ (if (preClearLoop 0 ds).2 then showLoop 0 ds else []),
      closeLoop 0 ds, rfl, ?_, closeLoop_isRelease ds 0⟩
    intro c hc
    rcases List.mem_append.mp hc with hc | hc
    · exact preClearLoop_isPreClear ds 0 c hc
    · split_ifs at hc
      · exact showLoop_isPreClear ds 0 c hc
      · simp at hc
  · have hcomp := preClearLoop_complete ds 0 h
    constructor
    · exact List.mem_append_left _
        (List.mem_append_left _ (by simpa using hcomp.2 i hi))
    · refine List.mem_append_left _ (List.mem_append_right _ ?_)
      rw [if_pos hcomp.1]
      exact (by simpa using showAt_mem_showLoop ds 0 i hi)

/-- C2 witness: the spec's example — drivers `[A, B]` where only A's
`close` raises: B's close is still attempted and both drivers receive
their pre-clear and show. -/
theorem claim_C2_close_order_witness :
    DevCall.closeAt 1 ∈ multiClose specEx ∧
    DevCall.fillAt 0 ∈ multiClose specEx ∧
    DevCall.showAt 1 ∈ multiClose specEx :=
  ⟨(claim_C2_close_order specEx).1 1 (by decide),
   ((claim_C2_close_order specEx).2.2 (by decide) 0 (by decide)).1,
   ((claim_C2_close_order specEx).2.2 (by decide) 1 (by decide)).2⟩

/-- C6: the composite `__setitem__` never lets an exception reach its
caller — for every driver list, index (in range or not) and color it
returns `ok`, and each driver's resulting buffer depends only on that
driver's own behaviour (so one driver's failure or out-of-range rejection
never blocks the rest).  Concretely, writing red to index 10 on a 5-pixel
strict driver, a failing driver and a 12-pixel healthy driver leaves the
first two untouched and sets pixel 10 of the third. -/
theorem claim_C6_setitem_safe :
    (∀ (ds : List (SDriver × List Color)) (i : Nat) (c : Color),
      multiSetItem ds i c = .ok (ds.map fun p => (p.1, trySetItem p.1 p.2 i c))) ∧
    multiSetItem setEx 10 (255, 0, 0) =
      .ok [(strictDrv, List.replicate 5 (0, 0, 0)),
           (flakyDrv, List.replicate 12 (0, 0, 0)),
           (okDrv, (List.replicate 12 (0, 0, 0)).set 10 (255, 0, 0))] :=
  ⟨multiSetItem_ok, rfl⟩

/-- C9: for every composite size and every observation schedule under
which the animation loop exits (the stop event observed set, or the
playing flag observed false, at some iteration), the emitted operation
trace ends with a clear of the composite device followed by a show — the
`finally` clause of `_rainbow`. -/
theorem claim_C9_final_clear :
    ∀ (num : Nat) (envs : List (Bool × Bool)),
      (∃ e ∈ envs, e.1 = true ∨ e.2 = false) →
      ∃ pre, rainbowLoop num envs = pre ++ [AnimOp.clearAll, AnimOp.flush] :=
  fun num envs _ => rainbowLoop_ends num envs

/-- C9 witness: one full frame, then the stop event is observed. -/
theorem claim_C9_final_clear_witness :
    ∃ pre, rainbowLoop 3 [(false, true), (true, true)] =
      pre ++ [AnimOp.clearAll, AnimOp.flush] :=
  claim_C9_final_clear 3 [(false, true), (true, true)]
    ⟨(true, true), by decide, Or.inl rfl⟩

/-- C7: the player-state string is compared case-insensitively — any
lowering of the state to `"playing"` starts, to `"paused"`/`"stopped"`
stops, anything else is ignored; a missing payload, missing key, integer
or boolean state is ignored without error; and `{state: "PAUSED"}` while
animating stops the animation, with a clear among the stop effects. -/
theorem claim_C7_player_state :
    (∀ s : String, pyLower s = "playing" → classifyState (.str s) = .start) ∧
    (∀ s : String, pyLower s = "paused" ∨ pyLower s = "stopped" →
      classifyState (.str s) = .stop) ∧
    (∀ s : String, pyLower s ≠ "playing" → pyLower s ≠ "paused" →
      pyLower s ≠ "stopped" → classifyState (.str s) = .ignore) ∧
    (∀ n : ℤ, classifyState (.int n) = .ignore) ∧
    (∀ b : Bool, classifyState (.bool b) = .ignore) ∧
    classifyState PyVal.none = .ignore ∧
    onPlayerState Option.none = .ignore ∧
    onPlayerState (some []) = .ignore ∧
    onPlayerState (some [("state", .str "PAUSED")]) = .stop ∧
    stopStep true ⟨true, false, true⟩ =
      (⟨false, true, false⟩, [Eff.setStopEvent, Eff.joinThread, Eff.clearLeds]) := by
  refine ⟨fun s h => ?_, fun s h => ?_, fun s h1 h2 h3 => ?_,
    classifyState_int, fun b => by cases b <;> rfl, rfl, rfl, rfl, rfl, rfl⟩
  · simp only [classifyState, pyStr]
    rw [if_pos h]
  · have hne : pyLower s ≠ "playing" := by
      rcases h with h | h <;> rw [h] <;> decide
    simp only [classifyState, pyStr]
    rw [if_neg hne, if_pos h]
  · simp only [classifyState, pyStr]
    rw [if_neg h1, if_neg (fun h => (h : _ ∨ _).elim h2 h3)]

/-- C7 witness: the general clauses instantiated on concrete payloads of
each kind. -/
theorem claim_C7_player_state_witness :
    classifyState (.str "PLAYING") = .start ∧
    classifyState (.str "Paused") = .stop ∧
    classifyState (.str "buffering") = .ignore ∧
    classifyState (.int 42) = .ignore :=
  ⟨claim_C7_player_state.1 "PLAYING" rfl,
   claim_C7_player_state.2.1 "Paused" (Or.inl rfl),
   claim_C7_player_state.2.2.1 "buffering" (by decide) (by decide) (by decide),
   claim_C7_player_state.2.2.2.1 42⟩

/-- C8: the base hue is `int(t * 100) % 360` — the floor of `t * 100`
reduced mod 360 for non-negative wall-clock time, agreeing with
`(100 * k) mod 360` at whole seconds; and at `t = 0` on a 28-pixel device
pixel 0 has hue 0°, pixel 14 has hue 180°, pixel 27 has hue `2430/7` ≈
347.14° (within 0.01°), with HSV(h, 1, 1) conversion giving RGB
(255, 0, 0) at pixel 0 and (0, 255, 255) at pixel 14. -/
theorem claim_C8_hue :
    (∀ t : ℚ, 0 ≤ t → hue0 t = ⌊t * 100⌋ % 360) ∧
    (∀ k : ℕ, hue0 (k : ℚ) = (100 * (k : ℤ)) % 360) ∧
    hue0 0 = 0 ∧
    pixelHue 0 28 0 = 0 ∧
    pixelHue 0 28 14 = 180 ∧
    |pixelHue 0 28 27 - 34714 / 100| < 1 / 100 ∧
    rainbowPixel 0 28 0 = (255, 0, 0) ∧
    rainbowPixel 0 28 14 = (0, 255, 255) := by
  refine ⟨fun t ht => hue0_floor ht, hue0_nat, hue0_zero, pixelHue_0,
    pixelHue_14, ?_, rainbowPixel_at_0, rainbowPixel_at_14⟩
  rw [pixelHue_27, abs_sub_lt_iff]
  constructor <;> norm_num

/-- C8 witness: the hue characterization applied at `t = 1/2` seconds and
at the whole second `k = 3`. -/
theorem claim_C8_hue_witness :
    hue0 (1 / 2) = ⌊(1 / 2 : ℚ) * 100⌋ % 360 ∧
    hue0 ((3 : ℕ) : ℚ) = (100 * ((3 : ℕ) : ℤ)) % 360 :=
  ⟨claim_C8_hue.1 (1 / 2) (by norm_num), claim_C8_hue.2.1 3⟩

/-- C3 witness: shutting down twice while animating equals shutting down
once, and a third call on the settled state is a no-op. -/
theorem claim_C3_shutdown_once_witness :
    shutdownN true 2 ⟨⟨true, false, true⟩, false⟩ =
      shutdownStep true ⟨⟨true, false, true⟩, false⟩ ∧
    shutdownStep true ⟨initCtrl, true⟩ = (⟨initCtrl, true⟩, []) :=
  ⟨(claim_C3_shutdown_once true ⟨⟨true, false, true⟩, false⟩ rfl).2.1 1,
   (claim_C3_shutdown_once true ⟨⟨true, false, true⟩, false⟩ rfl).2.2
     ⟨initCtrl, true⟩ rfl⟩

end MediaLed
